import Mathlib

/-!
# Verification of the OTT trend dashboard's ingestion and filtering layer

This file embeds the data-ingestion and filtering core of `dashboard.py`
(the functions `load_all_data` and `filter_data`) as executable Lean
definitions and proves properties about them.

Modelling conventions:
* A pandas `Timestamp` is a `Nat` counting minutes: a calendar date
  `y-m-d` maps to the key `y*10000 + m*100 + d`, and a timestamp on that
  date at `hh:mm` is `key * 1440 + hh*60 + mm`.  The key is strictly
  monotone in the calendar date, so `≤` on timestamps agrees with
  chronological order, and `pd.Timestamp(date)` (midnight) is `key * 1440`.
* A pandas missing value (`NaT` / `NaN`) is `none` in an `Option`.
* `pd.read_csv` failure and a raising `pd.to_datetime` are modelled with
  `Except`: the `try/except` of `load_all_data` turns an `Except.error`
  into "this file contributes no fragment".
* String splitting and digit parsing are re-implemented by structural
  recursion on `List Char` so that every definition evaluates by kernel
  reduction.
-/

/-- Split a list of characters on a separator, Python `str.split` style:
the empty input yields one empty token, and consecutive separators yield
empty tokens. -/
def splitCharsAux (sep : Char) : List Char → List Char → List (List Char)
  | [], acc => [acc.reverse]
  | c :: cs, acc =>
    if c = sep then acc.reverse :: splitCharsAux sep cs []
    else splitCharsAux sep cs (c :: acc)

/-- Python `s.split(sep)` for a one-character separator, as used on
filenames (`filename.split('_')`) in `load_all_data`. -/
def pySplit (sep : Char) (s : String) : List String :=
  (splitCharsAux sep s.toList []).map String.mk

/-- Digit characters to a number; `none` when a non-digit appears or the
list is empty. -/
def digitsToNat : List Char → Option Nat
  | [] => none
  | cs => go cs 0
where
  go : List Char → Nat → Option Nat
    | [], acc => some acc
    | c :: cs, acc =>
      if c.isDigit then go cs (acc * 10 + (c.toNat - '0'.toNat)) else none

/-- A month/day pair that a date parser accepts. -/
def validYMD (mn dn : Nat) : Bool :=
  1 ≤ mn && mn ≤ 12 && 1 ≤ dn && dn ≤ 31

/-- Midnight timestamp (in minutes) of the calendar date `y-m-d`. -/
def dateTs (yn mn dn : Nat) : Nat :=
  (yn * 10000 + mn * 100 + dn) * 1440

/-- Models the generic flexible parse `pd.to_datetime(x)` used on the
trend `period` column, restricted to the ISO `YYYY-MM-DD` shape the
datalab exports use; any other string is a parse failure (`none`). -/
def parseISODate (s : String) : Option Nat :=
  match (splitCharsAux '-' s.toList []).map String.mk with
  | [y, m, d] =>
    match digitsToNat y.toList, digitsToNat m.toList, digitsToNat d.toList with
    | some yn, some mn, some dn =>
      if y.length = 4 && m.length = 2 && d.length = 2 && validYMD mn dn then
        some (dateTs yn mn dn)
      else none
    | _, _, _ => none
  | _ => none

/-- Models `pd.to_datetime(x, format='%Y%m%d', errors='coerce')` used on
the blog `postdate` column: exactly eight digits forming a valid
year/month/day, anything else coerced to `none` (NaT), never raising. -/
def parseYYYYMMDD (s : String) : Option Nat :=
  let cs := s.toList
  if cs.length = 8 && cs.all Char.isDigit then
    match digitsToNat (cs.take 4), digitsToNat ((cs.drop 4).take 2),
          digitsToNat (cs.drop 6) with
    | some yn, some mn, some dn =>
      if validYMD mn dn then some (dateTs yn mn dn) else none
    | _, _, _ => none
  else none

/-- Models `pd.to_datetime(x, errors='coerce').dt.tz_localize(None)` used
on the news `pubDate` column: a flexible parse restricted to the
`YYYY-MM-DD HH:MM` shape, timezone information already dropped, failures
coerced to `none` (NaT), never raising. -/
def parsePubDate (s : String) : Option Nat :=
  match (splitCharsAux ' ' s.toList []).map String.mk with
  | [d, t] =>
    match parseISODate d, (splitCharsAux ':' t.toList []).map String.mk with
    | some base, [hh, mm] =>
      match digitsToNat hh.toList, digitsToNat mm.toList with
      | some h, some m =>
        if h < 24 && m < 60 then some (base + h * 60 + m) else none
      | _, _ => none
    | _, _ => none
  | [d] => parseISODate d
  | _ => none

/-! ## Data model

A loaded row carries the derived `keyword` and `date` columns plus the
original cell contents (`cells`); a missing value in either derived
column is `none`, matching a pandas `NaN`/`NaT`. -/

/-- One row of a merged category table. -/
structure Row where
  keyword : Option String
  date : Option Nat
  cells : List String
deriving DecidableEq, Repr

/-- The normalized table produced from a single input file (a fragment,
in the spec's terms): its rows plus whether the fragment carries a
`date` column. -/
structure Frag where
  hasDate : Bool
  rows : List Row
deriving DecidableEq, Repr

/-- A merged category table: `hasDateCol` records whether the column
`date` is present in the frame (`'date' in df.columns`). -/
structure Table where
  hasDateCol : Bool
  rows : List Row
deriving DecidableEq, Repr

/-- `pd.concat(dfs, ignore_index=True)` over fragments with outer column
union: the `date` column exists when any fragment has it, and rows are
concatenated in fragment order (a row from a fragment without the column
already carries `date = none`, matching the NaT fill).  Zero fragments
give the empty `pd.DataFrame()` the category was initialised with. -/
def mergeFrags (frags : List Frag) : Table :=
  { hasDateCol := frags.any (·.hasDate),
    rows := (frags.map (·.rows)).flatten }

/-! ## Source files

A CSV file is modelled by its basename, whether `pd.read_csv` succeeds
(`readable`), which of the expected columns its schema has, and its raw
rows. -/

/-- A raw row of a trend CSV: the `period` string and the `ratio` value. -/
structure TrendRaw where
  period : String
  ratio : Nat
deriving DecidableEq, Repr

/-- A trend CSV file under `data/datalab`. -/
structure TrendFile where
  name : String
  readable : Bool
  hasPeriodCol : Bool
  rows : List TrendRaw
deriving DecidableEq, Repr

/-- A raw row of a blog CSV: the `postdate` string and the title. -/
structure BlogRaw where
  postdate : String
  title : String
deriving DecidableEq, Repr

/-- A blog CSV file under `data/blog`. -/
structure BlogFile where
  name : String
  readable : Bool
  hasPostdateCol : Bool
  rows : List BlogRaw
deriving DecidableEq, Repr

/-- A raw row of a news CSV: the `pubDate` string and the title. -/
structure NewsRaw where
  pubDate : String
  title : String
deriving DecidableEq, Repr

/-- A news CSV file under `data/news`. -/
structure NewsFile where
  name : String
  readable : Bool
  hasPubDateCol : Bool
  rows : List NewsRaw
deriving DecidableEq, Repr

/-! ## `load_all_data` (dashboard.py lines 25-96) -/

/-- `pd.to_datetime(df['period'])` applied row by row: the default
`errors='raise'` means one unparseable `period` fails the whole column
conversion (models the raised exception as `none`). -/
def convertPeriods (kw : String) : List TrendRaw → Option (List Row)
  | [] => some []
  | r :: rest =>
    match parseISODate r.period with
    | some d =>
      (convertPeriods kw rest).map
        (fun tl => { keyword := some kw, date := some d,
                     cells := [r.period, Nat.repr r.ratio] } :: tl)
    | none => none

/-- The `try` body for one trend file (lines 33-45): extract the keyword
from the filename, read the CSV, tag the rows, convert `period` to
`date`.  `Except.error` is a raised exception; `Except.ok none` is the
silent skip of a filename with fewer than 3 underscore tokens. -/
def trendFileBody (f : TrendFile) : Except String (Option Frag) :=
  let parts := pySplit '_' f.name
  if 3 ≤ parts.length then
    let keyword := parts.getD 1 ""
    if f.readable then
      if f.hasPeriodCol then
        match convertPeriods keyword f.rows with
        | some rs => .ok (some { hasDate := true, rows := rs })
        | none => .error "to_datetime raised on period column"
      else
        .ok (some { hasDate := false,
                    rows := f.rows.map (fun r =>
                      { keyword := some keyword, date := none,
                        cells := [r.period, Nat.repr r.ratio] }) })
    else .error "read_csv raised"
  else .ok none

/-- One trend-file iteration of the load loop, with the `except` clause
(lines 46-47): an exception is caught and logged, and the file then
contributes no fragment. -/
def loadTrendFile (f : TrendFile) : Option Frag :=
  match trendFileBody f with
  | .ok o => o
  | .error _ => none

/-- The `try` body for one blog file (lines 56-67): keyword is the third
underscore token, `postdate` is converted with `errors='coerce'`, so
after a successful read nothing raises. -/
def blogFileBody (f : BlogFile) : Except String (Option Frag) :=
  let parts := pySplit '_' f.name
  if 3 ≤ parts.length then
    let keyword := parts.getD 2 ""
    if f.readable then
      if f.hasPostdateCol then
        .ok (some { hasDate := true,
                    rows := f.rows.map (fun r =>
                      { keyword := some keyword, date := parseYYYYMMDD r.postdate,
                        cells := [r.postdate, r.title] }) })
      else
        .ok (some { hasDate := false,
                    rows := f.rows.map (fun r =>
                      { keyword := some keyword, date := none,
                        cells := [r.postdate, r.title] }) })
    else .error "read_csv raised"
  else .ok none

/-- One blog-file iteration with the `except` clause (lines 68-69). -/
def loadBlogFile (f : BlogFile) : Option Frag :=
  match blogFileBody f with
  | .ok o => o
  | .error _ => none

/-- The `try` body for one news file (lines 78-89): keyword is the third
underscore token, `pubDate` is converted with `errors='coerce'` and the
timezone stripped. -/
def newsFileBody (f : NewsFile) : Except String (Option Frag) :=
  let parts := pySplit '_' f.name
  if 3 ≤ parts.length then
    let keyword := parts.getD 2 ""
    if f.readable then
      if f.hasPubDateCol then
        .ok (some { hasDate := true,
                    rows := f.rows.map (fun r =>
                      { keyword := some keyword, date := parsePubDate r.pubDate,
                        cells := [r.pubDate, r.title] }) })
      else
        .ok (some { hasDate := false,
                    rows := f.rows.map (fun r =>
                      { keyword := some keyword, date := none,
                        cells := [r.pubDate, r.title] }) })
    else .error "read_csv raised"
  else .ok none

/-- One news-file iteration with the `except` clause (lines 90-91). -/
def loadNewsFile (f : NewsFile) : Option Frag :=
  match newsFileBody f with
  | .ok o => o
  | .error _ => none

/-- The three category tables returned by `load_all_data`. -/
structure DataDict where
  trend : Table
  blog : Table
  news : Table
deriving DecidableEq, Repr

/-- `load_all_data` (lines 25-96): run every file of each category
through its loader, keep the successful fragments, and concatenate them
per category. -/
def load_all_data (tfs : List TrendFile) (bfs : List BlogFile)
    (nfs : List NewsFile) : DataDict :=
  { trend := mergeFrags (tfs.filterMap loadTrendFile),
    blog := mergeFrags (bfs.filterMap loadBlogFile),
    news := mergeFrags (nfs.filterMap loadNewsFile) }

/-! ## `filter_data` (dashboard.py lines 98-125) -/

/-- `df['keyword'].isin(keywords)` for one row: a missing keyword (NaN)
is never a member. -/
def kwPass (keywords : List String) (r : Row) : Bool :=
  match r.keyword with
  | some k => keywords.contains k
  | none => false

/-- The date mask `(date >= start_ts) & (date <= end_ts)` for one row;
on a NaT the comparison is false (such rows are already dropped by
`dropna` before the mask is applied). -/
def datePass (startTs endTs : Nat) (r : Row) : Bool :=
  match r.date with
  | some d => startTs ≤ d && d ≤ endTs
  | none => false

/-- The per-table body of `filter_data` (lines 104-123): an empty frame
is returned as is; otherwise the keyword filter applies only when
`keywords` is non-empty, and the date filter (`dropna` on `date`, then
the inclusive range mask against the midnight-normalized bounds) applies
only when the frame has a `date` column. -/
def filterTable (df : Table) (keywords : List String)
    (startDate endDate : Nat) : Table :=
  let startTs := startDate * 1440
  let endTs := endDate * 1440
  if df.rows.isEmpty then df
  else
    let dfSub := if keywords.isEmpty then df.rows
                 else df.rows.filter (kwPass keywords)
    let dfSub2 := if df.hasDateCol then
        (dfSub.filter (fun r => r.date.isSome)).filter (datePass startTs endTs)
      else dfSub
    { hasDateCol := df.hasDateCol, rows := dfSub2 }

/-- `filter_data` (lines 98-125): filter each category table with the
same keyword list and calendar-date bounds (`pd.Timestamp` of a date is
its midnight). -/
def filter_data (data : DataDict) (keywords : List String)
    (startDate endDate : Nat) : DataDict :=
  { trend := filterTable data.trend keywords startDate endDate,
    blog := filterTable data.blog keywords startDate endDate,
    news := filterTable data.news keywords startDate endDate }

/-! ## Object identity

To reason about mutation and aliasing (which a purely functional `Table`
value cannot express), tables are also modelled behind references into a
heap: `pd.DataFrame.copy()` allocates a fresh cell, while returning `df`
itself returns the same reference. -/

/-- A heap of DataFrame objects; a reference is an index. -/
abbrev Heap := List Table

/-- Dereference; an out-of-range reference reads as an empty frame. -/
def readRef (h : Heap) (r : Nat) : Table :=
  List.getD h r { hasDateCol := false, rows := [] }

/-- In-place mutation of the object a reference points to. -/
def writeRef (h : Heap) (r : Nat) (t : Table) : Heap :=
  List.set h r t

/-- The per-table body of `filter_data`, tracked at the object level:
an empty frame is passed through as the same object (`filtered[key] =
df`, line 106), while a non-empty frame goes through `.copy()`
(lines 112/114) and the result is a freshly allocated object holding
`filterTable`'s value. -/
def filterTableRef (h : Heap) (r : Nat) (keywords : List String)
    (startDate endDate : Nat) : Heap × Nat :=
  let df := readRef h r
  if df.rows.isEmpty then (h, r)
  else (h ++ [filterTable df keywords startDate endDate], h.length)

/-! ## Lemmas: the filter pipeline -/

attribute [ext] Table

/-- The single row predicate `filterTable` amounts to: the keyword test
(vacuous for an empty selection) and, when the table has a `date`
column, the `dropna` + range mask. -/
def rowPass (hasDate : Bool) (keywords : List String)
    (startTs endTs : Nat) (r : Row) : Bool :=
  (keywords.isEmpty || kwPass keywords r) &&
  (!hasDate || (r.date.isSome && datePass startTs endTs r))

lemma filterTable_hasDateCol (df : Table) (K : List String) (s e : Nat) :
    (filterTable df K s e).hasDateCol = df.hasDateCol := by
  unfold filterTable
  split <;> rfl

lemma filterTable_rows (df : Table) (K : List String) (s e : Nat) :
    (filterTable df K s e).rows =
      df.rows.filter (rowPass df.hasDateCol K (s * 1440) (e * 1440)) := by
  obtain ⟨hd, rows⟩ := df
  cases rows with
  | nil => simp [filterTable]
  | cons a l =>
    cases hd
    · cases K with
      | nil =>
        simp only [filterTable, List.isEmpty_cons, Bool.false_eq_true,
          if_false, List.isEmpty_nil, if_true]
        refine ((List.filter_congr (fun x _ => ?_)).trans (List.filter_true _)).symm
        simp [rowPass, List.isEmpty_nil]
      | cons k ks =>
        simp only [filterTable, List.isEmpty_cons, Bool.false_eq_true,
          if_false, List.isEmpty_nil, if_true]
        refine List.filter_congr (fun x _ => ?_)
        simp [rowPass]
    · cases K with
      | nil =>
        simp only [filterTable, List.isEmpty_cons, Bool.false_eq_true,
          if_false, List.isEmpty_nil, if_true, List.filter_filter]
        refine List.filter_congr (fun x _ => ?_)
        simp only [rowPass, List.isEmpty_nil, Bool.true_or, Bool.true_and,
          Bool.not_true, Bool.false_or]
        exact Bool.and_comm _ _
      | cons k ks =>
        simp only [filterTable, List.isEmpty_cons, Bool.false_eq_true,
          if_false, List.isEmpty_nil, if_true, List.filter_filter]
        refine List.filter_congr (fun x _ => ?_)
        simp only [rowPass, List.isEmpty_cons, Bool.false_or, Bool.not_true]
        cases hkw : kwPass (k :: ks) x <;>
          cases hdt : x.date.isSome <;>
          cases hdp : datePass (s * 1440) (e * 1440) x <;> simp_all

lemma filterTable_mem {df : Table} {K : List String} {s e : Nat} {r : Row} :
    r ∈ (filterTable df K s e).rows ↔
      r ∈ df.rows ∧ rowPass df.hasDateCol K (s * 1440) (e * 1440) r = true := by
  rw [filterTable_rows]
  exact List.mem_filter

/-! ## Claim C9: idempotence of filtering -/

/-- C9: filtering is idempotent: for every category table `T`, keyword
set `K`, and dates `s` and `e`, `filter (filter T K s e) K s e` equals
`filter T K s e`. -/
theorem C9_filter_idempotent (df : Table) (K : List String) (s e : Nat) :
    filterTable (filterTable df K s e) K s e = filterTable df K s e := by
  ext1
  · rw [filterTable_hasDateCol, filterTable_hasDateCol]
  · rw [filterTable_rows, filterTable_hasDateCol, filterTable_rows,
      List.filter_filter]
    exact List.filter_congr fun x _ => Bool.and_self _

/-! ## Claim C5: the empty keyword set is the most permissive selection -/

/-- C5: when the keyword set is empty no keyword filtering is applied —
the rows that survive are exactly those surviving the date stage — and
every row surviving `filter` with any keyword set `K` also survives
`filter` with the empty set. -/
theorem C5_empty_keywords_most_permissive (df : Table) (K : List String)
    (s e : Nat) (r : Row) :
    ((filterTable df [] s e).rows =
      df.rows.filter (fun x => !df.hasDateCol ||
        (x.date.isSome && datePass (s * 1440) (e * 1440) x))) ∧
    (r ∈ (filterTable df K s e).rows → r ∈ (filterTable df [] s e).rows) := by
  constructor
  · rw [filterTable_rows]
    exact List.filter_congr fun x _ => by simp [rowPass]
  · intro hr
    rw [filterTable_mem] at hr ⊢
    refine ⟨hr.1, ?_⟩
    have h2 := hr.2
    unfold rowPass at h2 ⊢
    simp only [List.isEmpty_nil, Bool.true_or, Bool.true_and]
    exact ((Bool.and_eq_true _ _).mp h2).2

/-- Witness for C5 at a concrete table, keyword set and row. -/
theorem C5_witness :
    { keyword := some "netflix", date := some (dateTs 2024 1 2),
      cells := [] : Row } ∈
      (filterTable
        { hasDateCol := true,
          rows := [{ keyword := some "netflix",
                     date := some (dateTs 2024 1 2), cells := [] }] }
        [] 20240101 20240103).rows :=
  (C5_empty_keywords_most_permissive
    { hasDateCol := true,
      rows := [{ keyword := some "netflix",
                 date := some (dateTs 2024 1 2), cells := [] }] }
    ["netflix"] 20240101 20240103
    { keyword := some "netflix", date := some (dateTs 2024 1 2),
      cells := [] }).2 (by decide)

/-! ## Claims C2 and C3: what survives the date filter -/

lemma rowPass_true_iff {K : List String} {s e : Nat} {r : Row} :
    rowPass true K s e r = true ↔
      (K = [] ∨ kwPass K r = true) ∧
        ∃ d, r.date = some d ∧ s ≤ d ∧ d ≤ e := by
  unfold rowPass
  cases hdt : r.date with
  | none => simp [datePass, hdt]
  | some d =>
    simp [datePass, hdt, Bool.and_eq_true, Bool.or_eq_true,
      List.isEmpty_iff, decide_eq_true_eq, and_assoc]

/-- The C2 counterexample table: a single row whose timestamp falls on
calendar date 2024-01-05 at 10:00 (600 minutes past midnight). -/
def tableC2 : Table :=
  { hasDateCol := true,
    rows := [{ keyword := some "netflix",
               date := some (dateTs 2024 1 5 + 600), cells := [] }] }

/-- C2 counterexample: the single row of `tableC2` falls on the end
calendar date 2024-01-05 (the day part of its timestamp is that date),
yet filtering over 2024-01-01 .. 2024-01-05 drops it, because the end
bound is normalized to midnight while the row's timestamp is not. -/
theorem C2_counterexample :
    (dateTs 2024 1 5 + 600) / 1440 = 20240105 ∧
    tableC2.rows = [{ keyword := some "netflix",
                      date := some (dateTs 2024 1 5 + 600), cells := [] }] ∧
    (filterTable tableC2 [] 20240101 20240105).rows = [] := by decide

/-- C2 (amended): for a table with a `date` column, `filter_data` keeps
exactly the rows whose non-null `date` timestamp lies between the
midnights of the start and end dates, inclusive; time-of-day is
normalized to midnight only on the bounds, not on the rows, so a row on
the end calendar date passes only if its time-of-day is midnight. -/
theorem C2_amended_midnight_bounds (df : Table) (K : List String)
    (s e : Nat) (r : Row) (hd : df.hasDateCol = true) :
    r ∈ (filterTable df K s e).rows ↔
      r ∈ df.rows ∧ (K = [] ∨ kwPass K r = true) ∧
        ∃ d, r.date = some d ∧ s * 1440 ≤ d ∧ d ≤ e * 1440 := by
  rw [filterTable_mem, hd, rowPass_true_iff]

/-- Witness for C2 (amended) at a concrete table and row. -/
theorem C2_amended_witness :
    { keyword := some "a", date := some 1500, cells := [] : Row } ∈
      (filterTable
        { hasDateCol := true,
          rows := [{ keyword := some "a", date := some 1500, cells := [] }] }
        ["a"] 1 2).rows :=
  (C2_amended_midnight_bounds
    { hasDateCol := true,
      rows := [{ keyword := some "a", date := some 1500, cells := [] }] }
    ["a"] 1 2
    { keyword := some "a", date := some 1500, cells := [] }
    (by decide)).mpr (by decide)

/-- The C3 counterexample file: a readable trend CSV whose schema lacks
the `period` column, so its fragment has no `date` column. -/
def fileC3 : TrendFile :=
  { name := "trend_netflix_20240101.csv", readable := true,
    hasPeriodCol := false, rows := [{ period := "", ratio := 42 }] }

/-- The row `fileC3` contributes to the merged trend table. -/
def rowC3 : Row :=
  { keyword := some "netflix", date := none, cells := ["", "42"] }

/-- C3 counterexample: a trend table genuinely produced by
`load_all_data` from a file without the `period` column has no `date`
column, and filtering it returns its row with a null `date` — so not
every row of a filtered category table has a non-null in-range date. -/
theorem C3_counterexample :
    (load_all_data [fileC3] [] []).trend.rows = [rowC3] ∧
    rowC3.date = none ∧
    (filterTable (load_all_data [fileC3] [] []).trend []
      20240101 20240105).rows = [rowC3] := by decide

/-- C3 (amended): every row of `filter(T, K, s, e)` comes from `T`;
when `T` has a `date` column its `date` is non-null and lies between
the midnights of `s` and `e`; and when `K` is non-empty its keyword is
a member of `K`.  Without a `date` column only the keyword filter
applies. -/
theorem C3_amended_filtered_row_properties (df : Table) (K : List String)
    (s e : Nat) (r : Row) (hr : r ∈ (filterTable df K s e).rows) :
    r ∈ df.rows ∧
    (df.hasDateCol = true →
      ∃ d, r.date = some d ∧ s * 1440 ≤ d ∧ d ≤ e * 1440) ∧
    (K ≠ [] → kwPass K r = true) := by
  rw [filterTable_mem] at hr
  obtain ⟨hmem, hp⟩ := hr
  refine ⟨hmem, ?_, ?_⟩
  · intro hd
    rw [hd] at hp
    exact (rowPass_true_iff.mp hp).2
  · intro hK
    unfold rowPass at hp
    have h1 := ((Bool.and_eq_true _ _).mp hp).1
    rcases Bool.or_eq_true _ _ |>.mp h1 with h | h
    · exact absurd (List.isEmpty_iff.mp h) hK
    · exact h

/-- Witness for C3 (amended) at a concrete filtered row. -/
theorem C3_amended_witness :
    { keyword := some "a", date := some 1500, cells := [] : Row } ∈
      ({ hasDateCol := true,
         rows := [{ keyword := some "a", date := some 1500,
                    cells := [] }] } : Table).rows ∧
    ((({ hasDateCol := true,
         rows := [{ keyword := some "a", date := some 1500,
                    cells := [] }] } : Table).hasDateCol = true) →
      ∃ d, ({ keyword := some "a", date := some 1500,
              cells := [] : Row }).date = some d ∧
        1 * 1440 ≤ d ∧ d ≤ 2 * 1440) ∧
    ((["a"] : List String) ≠ [] →
      kwPass ["a"] { keyword := some "a", date := some 1500,
                     cells := [] } = true) :=
  C3_amended_filtered_row_properties
    { hasDateCol := true,
      rows := [{ keyword := some "a", date := some 1500, cells := [] }] }
    ["a"] 1 2
    { keyword := some "a", date := some 1500, cells := [] }
    (by decide)

/-! ## Claim C4: purity and object identity of filtering -/

lemma readRef_append (h : Heap) (t : Table) (x : Nat) (hx : x < h.length) :
    readRef (h ++ [t]) x = readRef h x := by
  unfold readRef
  exact List.getD_append _ _ _ _ hx

lemma readRef_set_ne (h : Heap) (i j : Nat) (t : Table) (hij : i ≠ j) :
    readRef (writeRef h i t) j = readRef h j := by
  unfold readRef writeRef
  rw [List.getD_eq_getElem?_getD, List.getD_eq_getElem?_getD,
    List.getElem?_set_ne hij]

/-- The empty frame used in the C4 counterexample. -/
def emptyTblC4 : Table := { hasDateCol := true, rows := [] }

/-- The value written through the filter output in the C4
counterexample. -/
def mutatedC4 : Table :=
  { hasDateCol := true,
    rows := [{ keyword := some "x", date := none, cells := [] }] }

/-- C4 counterexample: for an empty input table, `filter_data` returns
the input object itself (`filtered[key] = df`), not a copy: the output
reference equals the input reference, so writing the mutated value
through the output changes the table read back at the input reference
from `emptyTblC4` to `mutatedC4`. -/
theorem C4_counterexample :
    (filterTableRef [emptyTblC4] 0 [] 1 2).2 = 0 ∧
    readRef [emptyTblC4] 0 = emptyTblC4 ∧
    readRef (writeRef (filterTableRef [emptyTblC4] 0 [] 1 2).1
      (filterTableRef [emptyTblC4] 0 [] 1 2).2 mutatedC4) 0 = mutatedC4 := by
  decide

/-- C4 (amended): filtering never mutates any pre-existing table, and
for a *non-empty* input table the output is a freshly allocated object,
so writing through the output reference leaves the input table
unchanged; an empty input table is passed through as the same object. -/
theorem C4_amended_no_mutation_fresh_copy (h : Heap) (r : Nat)
    (K : List String) (s e : Nat) :
    (∀ x, x < h.length → readRef (filterTableRef h r K s e).1 x = readRef h x) ∧
    ((readRef h r).rows ≠ [] → r < h.length →
      (filterTableRef h r K s e).2 = h.length ∧
      ∀ t, readRef (writeRef (filterTableRef h r K s e).1
        (filterTableRef h r K s e).2 t) r = readRef h r) := by
  by_cases hemp : (readRef h r).rows.isEmpty
  · constructor
    · intro x _
      simp [filterTableRef, hemp]
    · intro hne _
      exact absurd (List.isEmpty_iff.mp hemp) hne
  · have hemp' : (readRef h r).rows.isEmpty = false := by
      simpa using hemp
    constructor
    · intro x hx
      simp only [filterTableRef, hemp', Bool.false_eq_true, if_false]
      exact readRef_append h _ x hx
    · intro _ hr
      simp only [filterTableRef, hemp', Bool.false_eq_true, if_false]
      refine ⟨by trivial, fun t => ?_⟩
      rw [readRef_set_ne _ h.length r t (Nat.ne_of_gt hr),
        readRef_append h _ r hr]

/-- A non-empty frame for the C4 witness. -/
def tblC4w : Table :=
  { hasDateCol := true,
    rows := [{ keyword := some "a", date := some 0, cells := [] }] }

/-- Witness for C4 (amended): on a one-table heap holding a non-empty
frame, the output reference is fresh and writing through it leaves the
input table unchanged. -/
theorem C4_amended_witness :
    (filterTableRef [tblC4w] 0 [] 1 2).2 = 1 ∧
    ∀ t, readRef (writeRef (filterTableRef [tblC4w] 0 [] 1 2).1
      (filterTableRef [tblC4w] 0 [] 1 2).2 t) 0 = readRef [tblC4w] 0 :=
  (C4_amended_no_mutation_fresh_copy [tblC4w] 0 [] 1 2).2
    (by decide) (by decide)

/-! ## Claim C1: an unparseable trend `period` -/

lemma convertPeriods_eq_none (kw : String) {rs : List TrendRaw}
    {r : TrendRaw} (hr : r ∈ rs) (hp : parseISODate r.period = none) :
    convertPeriods kw rs = none := by
  induction rs with
  | nil => cases hr
  | cons a l ih =>
    rcases List.mem_cons.mp hr with h | h
    · subst h
      simp [convertPeriods, hp]
    · cases hpa : parseISODate a.period with
      | none => simp [convertPeriods, hpa]
      | some d => simp [convertPeriods, hpa, ih h]

lemma loadTrendFile_none_of_bad_period {f : TrendFile}
    (hread : f.readable = true) (hcol : f.hasPeriodCol = true)
    (hlen : 3 ≤ (pySplit '_' f.name).length)
    {r : TrendRaw} (hr : r ∈ f.rows) (hp : parseISODate r.period = none) :
    loadTrendFile f = none := by
  unfold loadTrendFile trendFileBody
  simp [hlen, hread, hcol, convertPeriods_eq_none _ hr hp]

lemma filterMap_middle_none {α β : Type} (g : α → Option β)
    (xs ys : List α) (b : α) (hb : g b = none) :
    List.filterMap g (xs ++ b :: ys) = List.filterMap g (xs ++ ys) := by
  rw [List.filterMap_append, List.filterMap_append, List.filterMap_cons, hb]

/-- The C1 counterexample file: a well-named, readable trend CSV with
one parseable and one unparseable `period` value. -/
def badPeriodFile : TrendFile :=
  { name := "trend_netflix_20240101.csv", readable := true,
    hasPeriodCol := true,
    rows := [{ period := "2024-01-02", ratio := 50 },
             { period := "notadate", ratio := 60 }] }

/-- C1 counterexample: in `badPeriodFile` the first row's `period`
parses and the second row's does not; `pd.to_datetime` (default
`errors='raise'`) then raises, the per-file handler catches it, and the
merged trend table is empty — the unparseable row does not remain with
a null `date`, and the parseable row of the same file is dropped too. -/
theorem C1_counterexample :
    parseISODate "2024-01-02" = some (dateTs 2024 1 2) ∧
    parseISODate "notadate" = none ∧
    (load_all_data [badPeriodFile] [] []).trend.rows = [] := by decide

/-- C1 (amended): a trend file containing a row whose `period` fails to
parse is skipped as a whole — `pd.to_datetime` raises, the exception is
caught, and the file contributes zero rows (its parseable rows
included), while every other file is ingested unaffected. -/
theorem C1_amended_bad_period_skips_file (f : TrendFile)
    (hread : f.readable = true) (hcol : f.hasPeriodCol = true)
    (hlen : 3 ≤ (pySplit '_' f.name).length)
    (r : TrendRaw) (hr : r ∈ f.rows) (hp : parseISODate r.period = none) :
    loadTrendFile f = none ∧
    ∀ (xs ys : List TrendFile) (bfs : List BlogFile) (nfs : List NewsFile),
      load_all_data (xs ++ f :: ys) bfs nfs = load_all_data (xs ++ ys) bfs nfs := by
  have hn := loadTrendFile_none_of_bad_period hread hcol hlen hr hp
  refine ⟨hn, fun xs ys bfs nfs => ?_⟩
  unfold load_all_data
  rw [filterMap_middle_none loadTrendFile xs ys f hn]

/-- Witness for C1 (amended) at `badPeriodFile`. -/
theorem C1_amended_witness :
    loadTrendFile badPeriodFile = none ∧
    load_all_data [badPeriodFile] [] [] = load_all_data [] [] [] := by
  have h := C1_amended_bad_period_skips_file badPeriodFile (by decide)
    (by decide) (by decide) { period := "notadate", ratio := 60 }
    (by decide) (by decide)
  exact ⟨h.1, h.2 [] [] [] []⟩

/-! ## Claim C6: which per-file conditions contribute zero rows -/

/-- An unreadable trend file (its `pd.read_csv` raises). -/
def unreadableTrend : TrendFile :=
  { name := "trend_netflix_20240101.csv", readable := false,
    hasPeriodCol := true, rows := [] }

/-- An unreadable blog file. -/
def unreadableBlog : BlogFile :=
  { name := "blog_review_netflix_20240101.csv", readable := false,
    hasPostdateCol := true, rows := [] }

/-- An unreadable news file. -/
def unreadableNews : NewsFile :=
  { name := "news_issue_netflix_20240101.csv", readable := false,
    hasPubDateCol := true, rows := [] }

/-- A trend file whose name has a single underscore-delimited token. -/
def shortTrendW : TrendFile :=
  { name := "trend.csv", readable := true, hasPeriodCol := true,
    rows := [{ period := "2024-01-02", ratio := 50 }] }

/-- A readable, well-named trend file missing the expected `period`
column. -/
def noPeriodTrend : TrendFile :=
  { name := "trend_netflix_20240101.csv", readable := true,
    hasPeriodCol := false, rows := [{ period := "", ratio := 7 }] }

/-- The row `noPeriodTrend` contributes to the merged trend table. -/
def noPeriodRow : Row :=
  { keyword := some "netflix", date := none, cells := ["", "7"] }

/-- A readable blog file whose only row has an unparseable `postdate`. -/
def badDateBlog : BlogFile :=
  { name := "blog_review_netflix_20240101.csv", readable := true,
    hasPostdateCol := true, rows := [{ postdate := "invalid", title := "t" }] }

/-- The row `badDateBlog` contributes, retained with a null `date`. -/
def badDateBlogRow : Row :=
  { keyword := some "netflix", date := none, cells := ["invalid", "t"] }

/-- C6 counterexample: two of the failure kinds the claim enumerates do
NOT make the file contribute zero rows.  A trend file missing the
expected `period` column is still ingested (the line-43 guard merely
skips the date conversion), and a blog file whose row has an
unparseable `postdate` keeps that row with a null `date`
(`errors='coerce'`). -/
theorem C6_counterexample :
    (load_all_data [noPeriodTrend] [] []).trend.rows = [noPeriodRow] ∧
    (load_all_data [] [badDateBlog] []).blog.rows = [badDateBlogRow] := by
  decide

/-- C6 (amended): `load_all_data` propagates no per-file exception, and
the failures that do raise inside the loop body are caught and make the
file contribute zero rows: an unreadable file (any category), and a
trend file with a `period` column containing an unparseable value
(whose `pd.to_datetime` raises); a malformed filename (fewer than three
underscore tokens, any category) is likewise skipped with zero rows,
without an error.  Every file contributing zero rows leaves the
remaining files of all categories ingested exactly as if it were
absent.  (A file missing its expected date column, or a blog/news row
with an unparseable date, is not a failure: its rows are ingested.) -/
theorem C6_amended_raising_failures_isolated
    (tb : TrendFile) (bb : BlogFile) (nb : NewsFile)
    (txs tys : List TrendFile) (bxs bys : List BlogFile)
    (nxs nys : List NewsFile) :
    (tb.readable = false → loadTrendFile tb = none) ∧
    (bb.readable = false → loadBlogFile bb = none) ∧
    (nb.readable = false → loadNewsFile nb = none) ∧
    (tb.hasPeriodCol = true →
      (∃ r ∈ tb.rows, parseISODate r.period = none) →
      loadTrendFile tb = none) ∧
    ((pySplit '_' tb.name).length < 3 → loadTrendFile tb = none) ∧
    ((pySplit '_' bb.name).length < 3 → loadBlogFile bb = none) ∧
    ((pySplit '_' nb.name).length < 3 → loadNewsFile nb = none) ∧
    (loadTrendFile tb = none → loadBlogFile bb = none →
      loadNewsFile nb = none →
      load_all_data (txs ++ tb :: tys) (bxs ++ bb :: bys) (nxs ++ nb :: nys)
        = load_all_data (txs ++ tys) (bxs ++ bys) (nxs ++ nys)) := by
  refine ⟨?_, ?_, ?_, ?_, ?_, ?_, ?_, ?_⟩
  · intro hr
    unfold loadTrendFile trendFileBody
    by_cases hlen : 3 ≤ (pySplit '_' tb.name).length
    · simp [hlen, hr]
    · simp [hlen]
  · intro hr
    unfold loadBlogFile blogFileBody
    by_cases hlen : 3 ≤ (pySplit '_' bb.name).length
    · simp [hlen, hr]
    · simp [hlen]
  · intro hr
    unfold loadNewsFile newsFileBody
    by_cases hlen : 3 ≤ (pySplit '_' nb.name).length
    · simp [hlen, hr]
    · simp [hlen]
  · intro hcol hex
    obtain ⟨r, hr, hp⟩ := hex
    by_cases hlen : 3 ≤ (pySplit '_' tb.name).length
    · cases hread : tb.readable with
      | true => exact loadTrendFile_none_of_bad_period hread hcol hlen hr hp
      | false =>
        unfold loadTrendFile trendFileBody
        simp [hlen, hread]
    · unfold loadTrendFile trendFileBody
      simp [hlen]
  · intro hlen
    unfold loadTrendFile trendFileBody
    rw [if_neg (by omega)]
  · intro hlen
    unfold loadBlogFile blogFileBody
    rw [if_neg (by omega)]
  · intro hlen
    unfold loadNewsFile newsFileBody
    rw [if_neg (by omega)]
  · intro h1 h2 h3
    unfold load_all_data
    rw [filterMap_middle_none loadTrendFile txs tys tb h1,
      filterMap_middle_none loadBlogFile bxs bys bb h2,
      filterMap_middle_none loadNewsFile nxs nys nb h3]

/-- Witness for C6 (amended): an unreadable file of each category, a
trend file with an unparseable `period`, and a one-token filename all
contribute zero rows, and ingesting alongside them equals ingesting
without them. -/
theorem C6_amended_witness :
    loadTrendFile unreadableTrend = none ∧
    loadTrendFile badPeriodFile = none ∧
    loadTrendFile shortTrendW = none ∧
    load_all_data [unreadableTrend] [unreadableBlog] [unreadableNews]
      = load_all_data [] [] [] := by
  have h1 := C6_amended_raising_failures_isolated unreadableTrend
    unreadableBlog unreadableNews [] [] [] [] [] []
  have h2 := C6_amended_raising_failures_isolated badPeriodFile
    unreadableBlog unreadableNews [] [] [] [] [] []
  have h3 := C6_amended_raising_failures_isolated shortTrendW
    unreadableBlog unreadableNews [] [] [] [] [] []
  refine ⟨h1.1 rfl, ?_, ?_, ?_⟩
  · exact h2.2.2.2.1 rfl
      ⟨{ period := "notadate", ratio := 60 }, by decide, by decide⟩
  · exact h3.2.2.2.2.1 (by decide)
  · exact h1.2.2.2.2.2.2.2 (h1.1 rfl) (h1.2.1 rfl) (h1.2.2.1 rfl)

/-! ## Claim C8: the strict `YYYYMMDD` blog date format -/

/-- The C8 blog file: one row with a conforming `postdate` and one with
a non-conforming value. -/
def goodBadBlogFile : BlogFile :=
  { name := "blog_review_netflix_20240101.csv", readable := true,
    hasPostdateCol := true,
    rows := [{ postdate := "20240115", title := "t1" },
             { postdate := "invalid", title := "t2" }] }

/-- The loaded row for postdate `"20240115"`. -/
def blogRowGood : Row :=
  { keyword := some "netflix", date := some (dateTs 2024 1 15),
    cells := ["20240115", "t1"] }

/-- The loaded row for postdate `"invalid"`. -/
def blogRowBad : Row :=
  { keyword := some "netflix", date := none, cells := ["invalid", "t2"] }

/-- C8: `"20240115"` parses under the strict 8-digit format to
2024-01-15 and `"invalid"` coerces to a null `date` without raising;
both rows are retained in the unfiltered blog table, and for every
date-bounded filter the null-date row is dropped (the result contains
at most the parseable row, exactly when 2024-01-15 is in range). -/
theorem C8_blog_postdate_strict_format :
    parseYYYYMMDD "20240115" = some (dateTs 2024 1 15) ∧
    parseYYYYMMDD "invalid" = none ∧
    (load_all_data [] [goodBadBlogFile] []).blog.rows
      = [blogRowGood, blogRowBad] ∧
    blogRowGood.date = some (dateTs 2024 1 15) ∧
    blogRowBad.date = none ∧
    ∀ s e, (filterTable (load_all_data [] [goodBadBlogFile] []).blog
        [] s e).rows
      = if s * 1440 ≤ dateTs 2024 1 15 ∧ dateTs 2024 1 15 ≤ e * 1440
        then [blogRowGood] else [] := by
  refine ⟨by decide, by decide, by decide, by decide, by decide,
    fun s e => ?_⟩
  have htbl : (load_all_data [] [goodBadBlogFile] []).blog
      = { hasDateCol := true, rows := [blogRowGood, blogRowBad] } := by
    decide
  rw [htbl, filterTable_rows]
  by_cases hin : s * 1440 ≤ dateTs 2024 1 15 ∧ dateTs 2024 1 15 ≤ e * 1440
  · rw [if_pos hin]
    simp [List.filter_cons, rowPass, kwPass, datePass, blogRowGood,
      blogRowBad, hin.1, hin.2]
  · rw [if_neg hin]
    have hg : (decide (s * 1440 ≤ dateTs 2024 1 15)
        && decide (dateTs 2024 1 15 ≤ e * 1440)) = false := by
      cases h1 : decide (s * 1440 ≤ dateTs 2024 1 15) with
      | false => exact Bool.false_and _
      | true =>
        cases h2 : decide (dateTs 2024 1 15 ≤ e * 1440) with
        | false => exact Bool.and_false _
        | true =>
          exact absurd ⟨of_decide_eq_true h1, of_decide_eq_true h2⟩ hin
    simp [List.filter_cons, rowPass, kwPass, datePass, blogRowGood,
      blogRowBad, hg]

/-! ## Claims C7 and C10: the derived `keyword` column -/

lemma convertPeriods_keyword (kw : String) {rs : List TrendRaw}
    {out : List Row} (h : convertPeriods kw rs = some out) :
    ∀ x ∈ out, x.keyword = some kw := by
  induction rs generalizing out with
  | nil =>
    simp only [convertPeriods, Option.some.injEq] at h
    subst h
    intro x hx
    cases hx
  | cons a l ih =>
    cases hpa : parseISODate a.period with
    | none => simp [convertPeriods, hpa] at h
    | some d =>
      simp only [convertPeriods, hpa, Option.map_eq_some'] at h
      obtain ⟨tl, htl, hout⟩ := h
      subst hout
      intro x hx
      rcases List.mem_cons.mp hx with h | h
      · subst h; rfl
      · exact ih htl x h

lemma trendFileBody_ok_keyword {f : TrendFile} {frag : Frag}
    (h : trendFileBody f = .ok (some frag)) :
    ∀ x ∈ frag.rows, x.keyword = some ((pySplit '_' f.name).getD 1 "") := by
  unfold trendFileBody at h
  by_cases hlen : 3 ≤ (pySplit '_' f.name).length
  · rw [if_pos hlen] at h
    cases hread : f.readable with
    | false => simp [hread] at h
    | true =>
      rw [hread] at h
      cases hcol : f.hasPeriodCol with
      | false =>
        simp only [hcol, Bool.false_eq_true, if_false, if_true,
          Except.ok.injEq, Option.some.injEq] at h
        subst h
        intro x hx
        obtain ⟨raw, _, hraw⟩ := List.mem_map.mp hx
        rw [← hraw]
      | true =>
        rw [hcol] at h
        simp only [if_true] at h
        cases hcp : convertPeriods ((pySplit '_' f.name).getD 1 "") f.rows with
        | none => rw [hcp] at h; cases h
        | some rs =>
          rw [hcp] at h
          simp only [Except.ok.injEq, Option.some.injEq] at h
          subst h
          exact convertPeriods_keyword _ hcp
  · rw [if_neg hlen] at h
    cases h

lemma blogFileBody_ok_keyword {f : BlogFile} {frag : Frag}
    (h : blogFileBody f = .ok (some frag)) :
    ∀ x ∈ frag.rows, x.keyword = some ((pySplit '_' f.name).getD 2 "") := by
  unfold blogFileBody at h
  by_cases hlen : 3 ≤ (pySplit '_' f.name).length
  · rw [if_pos hlen] at h
    cases hread : f.readable with
    | false => simp [hread] at h
    | true =>
      rw [hread] at h
      cases hcol : f.hasPostdateCol with
      | false =>
        simp only [hcol, Bool.false_eq_true, if_false, if_true,
          Except.ok.injEq, Option.some.injEq] at h
        subst h
        intro x hx
        obtain ⟨raw, _, hraw⟩ := List.mem_map.mp hx
        rw [← hraw]
      | true =>
        simp only [hcol, if_true, Except.ok.injEq, Option.some.injEq] at h
        subst h
        intro x hx
        obtain ⟨raw, _, hraw⟩ := List.mem_map.mp hx
        rw [← hraw]
  · rw [if_neg hlen] at h
    cases h

lemma newsFileBody_ok_keyword {f : NewsFile} {frag : Frag}
    (h : newsFileBody f = .ok (some frag)) :
    ∀ x ∈ frag.rows, x.keyword = some ((pySplit '_' f.name).getD 2 "") := by
  unfold newsFileBody at h
  by_cases hlen : 3 ≤ (pySplit '_' f.name).length
  · rw [if_pos hlen] at h
    cases hread : f.readable with
    | false => simp [hread] at h
    | true =>
      rw [hread] at h
      cases hcol : f.hasPubDateCol with
      | false =>
        simp only [hcol, Bool.false_eq_true, if_false, if_true,
          Except.ok.injEq, Option.some.injEq] at h
        subst h
        intro x hx
        obtain ⟨raw, _, hraw⟩ := List.mem_map.mp hx
        rw [← hraw]
      | true =>
        simp only [hcol, if_true, Except.ok.injEq, Option.some.injEq] at h
        subst h
        intro x hx
        obtain ⟨raw, _, hraw⟩ := List.mem_map.mp hx
        rw [← hraw]
  · rw [if_neg hlen] at h
    cases h

lemma loadTrendFile_eq_some {f : TrendFile} {frag : Frag} :
    loadTrendFile f = some frag ↔ trendFileBody f = .ok (some frag) := by
  unfold loadTrendFile
  cases h : trendFileBody f with
  | ok o => simp
  | error e => simp

lemma loadBlogFile_eq_some {f : BlogFile} {frag : Frag} :
    loadBlogFile f = some frag ↔ blogFileBody f = .ok (some frag) := by
  unfold loadBlogFile
  cases h : blogFileBody f with
  | ok o => simp
  | error e => simp

lemma loadNewsFile_eq_some {f : NewsFile} {frag : Frag} :
    loadNewsFile f = some frag ↔ newsFileBody f = .ok (some frag) := by
  unfold loadNewsFile
  cases h : newsFileBody f with
  | ok o => simp
  | error e => simp

/-- C7: the keyword for every ingested row is extracted positionally
from the filename — the 2nd underscore-delimited token (index 1) for
trend files, the 3rd (index 2) for blog and news files — and a filename
with fewer than three underscore-delimited tokens makes the file be
skipped entirely: its body completes normally (no error) with no
fragment, contributing zero rows. -/
theorem C7_keyword_extraction (tf : TrendFile) (bf : BlogFile)
    (nf : NewsFile) :
    (∀ frag, loadTrendFile tf = some frag →
      ∀ x ∈ frag.rows, x.keyword = some ((pySplit '_' tf.name).getD 1 "")) ∧
    (∀ frag, loadBlogFile bf = some frag →
      ∀ x ∈ frag.rows, x.keyword = some ((pySplit '_' bf.name).getD 2 "")) ∧
    (∀ frag, loadNewsFile nf = some frag →
      ∀ x ∈ frag.rows, x.keyword = some ((pySplit '_' nf.name).getD 2 "")) ∧
    ((pySplit '_' tf.name).length < 3 →
      trendFileBody tf = .ok none ∧ loadTrendFile tf = none) ∧
    ((pySplit '_' bf.name).length < 3 →
      blogFileBody bf = .ok none ∧ loadBlogFile bf = none) ∧
    ((pySplit '_' nf.name).length < 3 →
      newsFileBody nf = .ok none ∧ loadNewsFile nf = none) := by
  refine ⟨?_, ?_, ?_, ?_, ?_, ?_⟩
  · intro frag hf
    exact trendFileBody_ok_keyword (loadTrendFile_eq_some.mp hf)
  · intro frag hf
    exact blogFileBody_ok_keyword (loadBlogFile_eq_some.mp hf)
  · intro frag hf
    exact newsFileBody_ok_keyword (loadNewsFile_eq_some.mp hf)
  · intro hlen
    have hb : trendFileBody tf = .ok none := by
      unfold trendFileBody
      rw [if_neg (by omega)]
    exact ⟨hb, by unfold loadTrendFile; rw [hb]⟩
  · intro hlen
    have hb : blogFileBody bf = .ok none := by
      unfold blogFileBody
      rw [if_neg (by omega)]
    exact ⟨hb, by unfold loadBlogFile; rw [hb]⟩
  · intro hlen
    have hb : newsFileBody nf = .ok none := by
      unfold newsFileBody
      rw [if_neg (by omega)]
    exact ⟨hb, by unfold loadNewsFile; rw [hb]⟩

/-- A well-formed trend file for the C7 witness. -/
def goodTrendW : TrendFile :=
  { name := "trend_netflix_20240101.csv", readable := true,
    hasPeriodCol := true, rows := [{ period := "2024-01-02", ratio := 50 }] }

/-- The fragment `goodTrendW` loads to. -/
def goodTrendFragW : Frag :=
  { hasDate := true,
    rows := [{ keyword := some "netflix", date := some (dateTs 2024 1 2),
               cells := ["2024-01-02", "50"] }] }

/-- Witness for C7: the row of `goodTrendW` is tagged with the 2nd
filename token, and the one-token `trend.csv` is skipped without an
error. -/
theorem C7_witness :
    ({ keyword := some "netflix", date := some (dateTs 2024 1 2),
       cells := ["2024-01-02", "50"] } : Row).keyword
      = some ((pySplit '_' goodTrendW.name).getD 1 "") ∧
    trendFileBody shortTrendW = .ok none ∧
    loadTrendFile shortTrendW = none := by
  have h1 := (C7_keyword_extraction goodTrendW unreadableBlog
    unreadableNews).1 goodTrendFragW (by decide)
    { keyword := some "netflix", date := some (dateTs 2024 1 2),
      cells := ["2024-01-02", "50"] } (by decide)
  have h2 := (C7_keyword_extraction shortTrendW unreadableBlog
    unreadableNews).2.2.2.1 (by decide)
  exact ⟨h1, h2.1, h2.2⟩

lemma mergeFrags_mem {frags : List Frag} {r : Row} :
    r ∈ (mergeFrags frags).rows ↔ ∃ frag ∈ frags, r ∈ frag.rows := by
  simp [mergeFrags, List.mem_flatten]

/-- C10: every row of every category table produced by `load_all_data`
carries a non-null `keyword`, so the keyword membership test of
`filter_data` is well-defined on every ingested row. -/
theorem C10_rows_have_keyword (tfs : List TrendFile) (bfs : List BlogFile)
    (nfs : List NewsFile) (r : Row)
    (hr : r ∈ (load_all_data tfs bfs nfs).trend.rows ∨
          r ∈ (load_all_data tfs bfs nfs).blog.rows ∨
          r ∈ (load_all_data tfs bfs nfs).news.rows) :
    r.keyword.isSome = true := by
  rcases hr with h | h | h
  · simp only [load_all_data] at h
    rw [mergeFrags_mem] at h
    obtain ⟨frag, hfrag, hrf⟩ := h
    obtain ⟨f, _, hf⟩ := List.mem_filterMap.mp hfrag
    rw [trendFileBody_ok_keyword (loadTrendFile_eq_some.mp hf) r hrf]
    rfl
  · simp only [load_all_data] at h
    rw [mergeFrags_mem] at h
    obtain ⟨frag, hfrag, hrf⟩ := h
    obtain ⟨f, _, hf⟩ := List.mem_filterMap.mp hfrag
    rw [blogFileBody_ok_keyword (loadBlogFile_eq_some.mp hf) r hrf]
    rfl
  · simp only [load_all_data] at h
    rw [mergeFrags_mem] at h
    obtain ⟨frag, hfrag, hrf⟩ := h
    obtain ⟨f, _, hf⟩ := List.mem_filterMap.mp hfrag
    rw [newsFileBody_ok_keyword (loadNewsFile_eq_some.mp hf) r hrf]
    rfl

/-- Witness for C10 at a concrete ingested trend row. -/
theorem C10_witness :
    ({ keyword := some "netflix", date := some (dateTs 2024 1 2),
       cells := ["2024-01-02", "50"] } : Row).keyword.isSome = true :=
  C10_rows_have_keyword [goodTrendW] [] []
    { keyword := some "netflix", date := some (dateTs 2024 1 2),
      cells := ["2024-01-02", "50"] }
    (Or.inl (by decide))
